import Mathlib

/-!
Shallow embedding of the health-monitor frontend core: the snapshot fetcher
(`src/frontend/health-ui/src/api/health.ts`), the data model
(`src/frontend/health-ui/src/types.ts`) and the pure derived-view functions of
the two presentation variants (`src/frontend/health-ui/src/App.tsx`, called
`BasicApp` below, and the richer unnamed variant, called `RichApp` below).

JavaScript strings are modelled as lists of characters (`JSString`), and
JavaScript numbers as rationals extended with the non-finite values
(`JSNumber`); `Number.isFinite`, `Math.round`, `toFixed(1)`,
`toLocaleString()`, first-occurrence `String.replace`, the `URL` constructor
and `Number(string)` conversion are modelled explicitly below.
-/

/-- JavaScript strings, modelled as lists of characters. -/
abbrev JSString := List Char

/-- JavaScript numbers: finite values idealised as rationals, plus `NaN` and
the two infinities. -/
inductive JSNumber where
  | finite (val : ℚ)
  | nan
  | posInf
  | negInf
deriving DecidableEq

/-- `Number.isFinite`. -/
def JSNumber.isFinite : JSNumber → Bool
  | JSNumber.finite _ => true
  | _ => false

/-- Decimal digits to a natural number (most significant first). -/
def digitsToNat (l : List Char) : Nat :=
  l.foldl (fun n c => n * 10 + (c.toNat - 48)) 0

/-- Models the JavaScript `Number(string)` conversion on the fragment the
repository exercises: the empty string converts to `0`, a nonempty string of
decimal digits converts to that integer, and any other string is `NaN`. -/
def jsStringToNumber (s : String) : JSNumber :=
  if s.data.isEmpty then JSNumber.finite 0
  else if s.data.all (fun c => c.isDigit) then JSNumber.finite (digitsToNat s.data)
  else JSNumber.nan

/-- `Math.round`: round half toward positive infinity. -/
def jsRound (q : ℚ) : Int := ⌊q + 1/2⌋

/-- Insert a comma after every three characters of a reversed digit list;
helper for `jsToLocaleString`. -/
def group3 : List Char → List Char
  | a :: b :: c :: d :: rest => a :: b :: c :: ',' :: group3 (d :: rest)
  | l => l

/-- Models `Number.prototype.toLocaleString()` on integers in the default
dashboard locale: decimal digits grouped in threes by commas. -/
def jsToLocaleString (n : Int) : JSString :=
  (if n < 0 then ['-'] else []) ++ (group3 (toString n.natAbs).data.reverse).reverse

/-- Digits of `m` tenths written with one decimal place; helper for
`jsToFixed1`. -/
def toFixed1Core (m : Nat) : JSString :=
  (toString (m / 10)).data ++ '.' :: (toString (m % 10)).data

/-- Models `Number.prototype.toFixed(1)`: the integer `n` closest to `10·q`
(ties toward the larger `n`, as specified for `toFixed`) printed with one
decimal place. -/
def jsToFixed1 (q : ℚ) : JSString :=
  let n : Int := ⌊q * 10 + 1/2⌋
  if n < 0 then '-' :: toFixed1Core n.natAbs else toFixed1Core n.natAbs

/-- The `host` and `pathname` of a parsed URL. -/
structure URLParts where
  host : JSString
  pathname : JSString
deriving DecidableEq

/-- Models the platform `URL` constructor on absolute `http(s)` URLs without
userinfo, query or fragment: the host is everything between the scheme and the
first slash, the pathname is the rest (defaulting to `/`); a URL with nothing
after the scheme fails to parse, as the constructor throws there. -/
def parseURL (value : JSString) : Option URLParts :=
  let afterScheme : Option JSString :=
    if ("http://".data).isPrefixOf value then some (value.drop 7)
    else if ("https://".data).isPrefixOf value then some (value.drop 8)
    else none
  match afterScheme with
  | none => none
  | some rest =>
    let host := rest.takeWhile (fun c => decide (c ≠ '/'))
    let path := rest.dropWhile (fun c => decide (c ≠ '/'))
    if host.isEmpty then none
    else some { host := host, pathname := if path.isEmpty then "/".data else path }

/-- JavaScript truthiness of an optional string: `null`/`undefined` and the
empty string are falsy. -/
def jsTruthyStr (o : Option JSString) : Bool :=
  match o with
  | some s => !s.isEmpty
  | none => false

/-- `Number.isFinite` applied to a possibly-absent number
(`undefined`/`null` are not finite). -/
def jsIsFinite (v : Option JSNumber) : Bool :=
  match v with
  | some n => n.isFinite
  | none => false

/-- The rational value of a finite optional number (`0` outside the finite
case, which callers guard with `jsIsFinite`). -/
def jsToFiniteVal (v : Option JSNumber) : ℚ :=
  match v with
  | some (JSNumber.finite q) => q
  | _ => 0

/-- First-occurrence `String.prototype.replace` with a string pattern. -/
def replaceFirst (pattern replacement : JSString) : JSString → JSString
  | [] => if pattern.isEmpty then replacement else []
  | c :: rest =>
    if pattern.isPrefixOf (c :: rest) then replacement ++ (c :: rest).drop pattern.length
    else c :: replaceFirst pattern replacement rest

/-- `String.prototype.trim`. -/
def jsTrim (s : JSString) : JSString :=
  ((s.dropWhile Char.isWhitespace).reverse.dropWhile Char.isWhitespace).reverse

/-- `PeerState` (types.ts): the closed enumeration of peer states. -/
inductive PeerState where
  | offline
  | unreachable
  | joining
  | online
deriving DecidableEq

/-- `AdapterInfo` (types.ts). -/
structure AdapterInfo where
  name : JSString
  short_name : JSString
deriving DecidableEq

/-- `ServerInfo` (types.ts): all fields optional on the wire. -/
structure ServerInfo where
  public_name : Option JSString
  version : Option JSString
  throughput : Option JSNumber
  inference_rps : Option JSNumber
  forward_rps : Option JSNumber
  network_rps : Option JSNumber
  torch_dtype : Option JSString
  quant_type : Option JSString
  cache_tokens_left : Option JSNumber
  using_relay : Option Bool
deriving DecidableEq

/-- `SpanInfo` (types.ts): the half-open block range a server claims. -/
structure SpanInfo where
  start : Nat
  «end» : Nat
  length : Nat
  server_info : ServerInfo
deriving DecidableEq

/-- `ServerRow` (types.ts). -/
structure ServerRow where
  short_peer_id : JSString
  peer_id : JSString
  show_public_name : Bool
  state : PeerState
  span : SpanInfo
  adapters : List AdapterInfo
  pings_to_me : List (JSString × ℚ)
  cache_tokens_left_per_block : Option JSNumber
deriving DecidableEq

/-- `ModelReport.state` (types.ts). -/
inductive ModelState where
  | healthy
  | broken
deriving DecidableEq

/-- `ModelReport` (types.ts). -/
structure ModelReport where
  name : JSString
  short_name : JSString
  repository : JSString
  dht_prefix : JSString
  num_blocks : Nat
  official : Bool
  limited : Bool
  state : ModelState
  server_rows : List ServerRow
deriving DecidableEq

/-- `ReachabilityIssue` (types.ts). -/
structure ReachabilityIssue where
  peer_id : JSString
  err : JSString
deriving DecidableEq

/-- The `last_updated` field as it arrives on the wire
(`number | string`, possibly absent at runtime). -/
inductive WireTimestamp where
  | num (v : JSNumber)
  | str (s : String)
  | absent
deriving DecidableEq

/-- `HealthState` (types.ts) after timestamp normalization:
`last_updated` is a number (milliseconds). -/
structure HealthState where
  bootstrap_states : List PeerState
  top_contributors : List (JSString × Int)
  model_reports : List ModelReport
  reachability_issues : List ReachabilityIssue
  last_updated : JSNumber
  update_period : ℚ
  update_duration : ℚ
deriving DecidableEq

/-- The loosely-typed snapshot as parsed from the response body, before
timestamp normalization. -/
structure WireHealthState where
  bootstrap_states : List PeerState
  top_contributors : List (JSString × Int)
  model_reports : List ModelReport
  reachability_issues : List ReachabilityIssue
  last_updated : WireTimestamp
  update_period : ℚ
  update_duration : ℚ
deriving DecidableEq

/-- `normalizeTimestamp` (api/health.ts): the wire value in seconds (or a
numeric string) becomes milliseconds; absent, non-numeric or non-finite wire
values are replaced by the current instant `now` (`Date.now()`). -/
def normalizeTimestamp (now : ℚ) (timestamp : WireTimestamp) : JSNumber :=
  let value : JSNumber :=
    match timestamp with
    | WireTimestamp.str s => jsStringToNumber s
    | WireTimestamp.num v => v
    | WireTimestamp.absent => JSNumber.nan
  match value with
  | JSNumber.finite v => JSNumber.finite (v * 1000)
  | _ => JSNumber.finite now

/-- The transport response as the fetcher observes it: the success flag and
status of the HTTP response, the result of reading the body as text
(`Except.error` models a throwing body read) and the result of parsing the
body as JSON. -/
structure WireResponse where
  ok : Bool
  status : Nat
  bodyText : Except Unit String
  jsonBody : Except Unit WireHealthState

/-- `safeReadText` (api/health.ts): best-effort body text; a throwing read is
swallowed and becomes `undefined` (`none`). -/
def safeReadText (r : WireResponse) : Option String :=
  match r.bodyText with
  | Except.ok s => some s
  | Except.error _ => none

/-- JavaScript `||` on `string | undefined`: `undefined` and the empty string
are falsy and select the fallback. -/
def jsOrString (m : Option String) (fallback : String) : String :=
  match m with
  | some s => if s = "" then fallback else s
  | none => fallback

/-- The observable outcome of `fetchHealthState`. -/
inductive FetchResult where
  | failure (message : String)
  | jsonFailure
  | success (state : HealthState)
deriving DecidableEq

/-- `fetchHealthState` (api/health.ts): on a non-2xx response it throws an
`Error` whose message is the body text or a generic status message; on success
it returns the parsed payload with `last_updated` normalized. -/
def fetchHealthState (now : ℚ) (r : WireResponse) : FetchResult :=
  if r.ok = false then
    let message := safeReadText r
    FetchResult.failure (jsOrString message ("Request failed with status " ++ toString r.status))
  else
    match r.jsonBody with
    | Except.error _ => FetchResult.jsonFailure
    | Except.ok payload =>
      FetchResult.success
        { bootstrap_states := payload.bootstrap_states
          top_contributors := payload.top_contributors
          model_reports := payload.model_reports
          reachability_issues := payload.reachability_issues
          last_updated := normalizeTimestamp now payload.last_updated
          update_period := payload.update_period
          update_duration := payload.update_duration }

/-- `STATE_CHARS` (both App variants): the status glyph per peer state. -/
def STATE_CHARS : PeerState → JSString
  | PeerState.offline => "_".data
  | PeerState.unreachable => "✖".data
  | PeerState.joining => "●".data
  | PeerState.online => "●".data

/-- One cell of the served-blocks strip of `ServerRowItem` (both App
variants): block index `idx` shows the row's status glyph when
`idx >= row.span.start && idx < row.span.end`, and is empty otherwise. -/
def blockCell (row : ServerRow) (idx : Nat) : JSString :=
  if row.span.start ≤ idx ∧ idx < row.span.«end» then STATE_CHARS row.state else []

/-- The full served-blocks strip of `ServerRowItem` (both App variants):
`Array.from({length: numBlocks}, (_, idx) => ...)`. -/
def coverageRow (numBlocks : Nat) (row : ServerRow) : List JSString :=
  (List.range numBlocks).map (blockCell row)

/-- `MAX_CONTRIBUTORS` (both App variants). -/
def MAX_CONTRIBUTORS : Nat := 5

/-- The `refetchInterval` callback of the `useQuery` options (both App
variants): `query.state.data` is the last successfully fetched snapshot
(absent before any success), and the interval is
`Math.max(seconds * 1000, 30_000)` with `seconds = data?.update_period ?? 60`. -/
def refetchInterval (data : Option HealthState) : ℚ :=
  let seconds : ℚ :=
    match data with
    | some h => h.update_period
    | none => 60
  max (seconds * 1000) 30000

/-- `ContributorEntry` (both App variants): one `Object.entries` pair. -/
abbrev ContributorEntry := JSString × Int

/-- The ordering the comparator `([, a], [, b]) => b - a` sorts by:
`a` may precede `b` when the comparator is non-positive, i.e. when
`b.count ≤ a.count` (descending counts). -/
def contribLE (a b : ContributorEntry) : Prop := b.2 ≤ a.2

instance : DecidableRel contribLE := fun a b => inferInstanceAs (Decidable (b.2 ≤ a.2))

instance : IsTotal ContributorEntry contribLE := ⟨fun a b => le_total b.2 a.2⟩

instance : IsTrans ContributorEntry contribLE := ⟨fun _ _ _ hab hbc => le_trans hbc hab⟩

/-- The rendering of a contributor name: either an anchor with a target and a
visible label, or plain text. -/
inductive RenderedName where
  | link (href label : JSString)
  | text (label : JSString)
deriving DecidableEq

/-- The contents of the contributor cell of a server row: an empty cell
(`null`), the `Hidden` badge, the `—` badge, or a rendered name. -/
inductive ContributorCell where
  | empty
  | hiddenBadge
  | dashBadge
  | named (r : RenderedName)
deriving DecidableEq

namespace BasicApp

/-- `getTopContributors` (App.tsx): `Object.entries(counter)` sorted by the
stable `Array.prototype.sort` under the comparator `b - a` (modelled by the
stable `insertionSort` under the comparator's ordering), then `slice(0, 5)`. -/
def getTopContributors (counter : List ContributorEntry) : List ContributorEntry :=
  (List.insertionSort contribLE counter).take MAX_CONTRIBUTORS

/-- `truncateWithEllipsis` (App.tsx). -/
def truncateWithEllipsis (value : JSString) (max : Nat) : JSString :=
  if value.length ≤ max then value else value.take (max - 1) ++ ['…']

/-- The `.replace(/\/$/, '')` applied to the pathname in `normalizeLink`:
strip one trailing slash. -/
def stripTrailingSlash (p : JSString) : JSString :=
  if p.getLast? = some '/' then p.dropLast else p

/-- `normalizeLink` (App.tsx): `(href, label)`; a throwing `new URL` falls
back to the raw value for both. -/
def normalizeLink (value : JSString) : JSString × JSString :=
  match parseURL value with
  | some url => (value, url.host ++ stripTrailingSlash url.pathname)
  | none => (value, value)

/-- `formatContributorName` (App.tsx). -/
def formatContributorName (name : JSString) : RenderedName :=
  if ("http://".data).isPrefixOf name || ("https://".data).isPrefixOf name then
    RenderedName.link (normalizeLink name).1 (truncateWithEllipsis (normalizeLink name).2 20)
  else
    RenderedName.text (truncateWithEllipsis name 20)

/-- `renderContributor` (App.tsx): `null` when the privacy gate is on or no
public name is present (JS truthiness: absent or empty). -/
def renderContributor (row : ServerRow) : ContributorCell :=
  if row.show_public_name = false then ContributorCell.empty
  else if jsTruthyStr row.span.server_info.public_name = false then ContributorCell.empty
  else ContributorCell.named (formatContributorName (row.span.server_info.public_name.getD []))

/-- `renderVersion` (App.tsx). -/
def renderVersion (version : Option JSString) : JSString :=
  if jsTruthyStr version = false then "< 2.0.0".data
  else truncateWithEllipsis (version.getD []) 10

/-- `renderThroughput` (App.tsx). -/
def renderThroughput (throughput : Option JSNumber) : JSString :=
  if jsIsFinite throughput = false then "—".data
  else jsToLocaleString (jsRound (jsToFiniteVal throughput)) ++ " tok/s".data

/-- `renderRps` (App.tsx). -/
def renderRps (value : Option JSNumber) : JSString :=
  if jsIsFinite value = false then []
  else jsToLocaleString (jsRound (jsToFiniteVal value))

/-- `renderPrecision` (App.tsx). -/
def renderPrecision (info : ServerInfo) : JSString :=
  let dtype :=
    if jsTruthyStr info.torch_dtype then replaceFirst "float".data "f".data (info.torch_dtype.getD [])
    else []
  let quant :=
    if jsTruthyStr info.quant_type = true ∧ info.quant_type.getD [] ≠ "none".data
    then '(' :: (info.quant_type.getD [] ++ [')'])
    else []
  jsTrim (dtype ++ ' ' :: quant)

/-- `renderAvailability` (App.tsx): a tri-state, not a boolean default. -/
def renderAvailability (usingRelay : Option Bool) : JSString :=
  match usingRelay with
  | none => []
  | some true => "Relay".data
  | some false => "Direct".data

/-- `formatPing` (App.tsx). -/
def formatPing (rtt : ℚ) : JSString :=
  if rtt ≤ 5 then jsToFixed1 (rtt * 1000) ++ " ms".data else "> 5 s".data

end BasicApp

namespace RichApp

/-- `getTopContributors` (rich variant): identical to the basic variant. -/
def getTopContributors (counter : List ContributorEntry) : List ContributorEntry :=
  (List.insertionSort contribLE counter).take MAX_CONTRIBUTORS

/-- `truncateWithEllipsis` (rich variant). -/
def truncateWithEllipsis (value : JSString) (max : Nat) : JSString :=
  if value.length ≤ max then value else value.take (max - 1) ++ ['…']

/-- The `.replace(/\/$/, '')` of the rich variant's `normalizeLink`. -/
def stripTrailingSlash (p : JSString) : JSString :=
  if p.getLast? = some '/' then p.dropLast else p

/-- `normalizeLink` (rich variant). -/
def normalizeLink (value : JSString) : JSString × JSString :=
  match parseURL value with
  | some url => (value, url.host ++ stripTrailingSlash url.pathname)
  | none => (value, value)

/-- `formatContributorName` (rich variant). -/
def formatContributorName (name : JSString) : RenderedName :=
  if ("http://".data).isPrefixOf name || ("https://".data).isPrefixOf name then
    RenderedName.link (normalizeLink name).1 (truncateWithEllipsis (normalizeLink name).2 20)
  else
    RenderedName.text (truncateWithEllipsis name 20)

/-- `renderContributor` (rich variant): a `Hidden` badge when the privacy
gate is on, a `—` badge when no public name is present. -/
def renderContributor (row : ServerRow) : ContributorCell :=
  if row.show_public_name = false then ContributorCell.hiddenBadge
  else if jsTruthyStr row.span.server_info.public_name = false then ContributorCell.dashBadge
  else ContributorCell.named (formatContributorName (row.span.server_info.public_name.getD []))

/-- `renderVersion` (rich variant). -/
def renderVersion (version : Option JSString) : JSString :=
  if jsTruthyStr version = false then "< 2.0.0".data
  else truncateWithEllipsis (version.getD []) 10

/-- `renderThroughput` (rich variant). -/
def renderThroughput (throughput : Option JSNumber) : JSString :=
  if jsIsFinite throughput = false then "—".data
  else jsToLocaleString (jsRound (jsToFiniteVal throughput)) ++ " tok/s".data

/-- `renderRps` (rich variant). -/
def renderRps (value : Option JSNumber) : JSString :=
  if jsIsFinite value = false then []
  else jsToLocaleString (jsRound (jsToFiniteVal value))

/-- `renderPrecision` (rich variant). -/
def renderPrecision (info : ServerInfo) : JSString :=
  let dtype :=
    if jsTruthyStr info.torch_dtype then replaceFirst "float".data "f".data (info.torch_dtype.getD [])
    else []
  let quant :=
    if jsTruthyStr info.quant_type = true ∧ info.quant_type.getD [] ≠ "none".data
    then '(' :: (info.quant_type.getD [] ++ [')'])
    else []
  jsTrim (dtype ++ ' ' :: quant)

/-- `renderAvailability` (rich variant). -/
def renderAvailability (usingRelay : Option Bool) : JSString :=
  match usingRelay with
  | none => []
  | some true => "Relay".data
  | some false => "Direct".data

/-- `formatPing` (rich variant). -/
def formatPing (rtt : ℚ) : JSString :=
  if rtt ≤ 5 then jsToFixed1 (rtt * 1000) ++ " ms".data else "> 5 s".data

end RichApp

theorem countP_range_interval (s e : Nat) : ∀ n : Nat,
    (List.range n).countP (fun i => decide (s ≤ i ∧ i < e)) = min e n - min s n := by
  intro n
  induction n with
  | zero => simp
  | succ n ih =>
    rw [List.range_succ, List.countP_append, ih, List.countP_cons, List.countP_nil]
    by_cases h : s ≤ n ∧ n < e
    · simp only [decide_eq_true_eq, if_pos h]
      omega
    · simp only [decide_eq_true_eq, if_neg h]
      omega

theorem STATE_CHARS_ne_nil (st : PeerState) : STATE_CHARS st ≠ [] := by
  cases st <;> decide

/-- Claim C1: for a model with `num_blocks = n` and a server row whose span
satisfies `start ≤ end ≤ n`, the served-blocks strip marks block index `i` as
covered (non-empty cell) iff `start ≤ i < end`; exactly `end − start` of the
`n` cells are covered and every covered index lies in `[0, n)`; every covered
cell holds exactly the row state's glyph (`online` and `joining` share the
filled glyph, `unreachable` and `offline` have their own distinct glyphs) and
every uncovered cell is empty. -/
theorem claim_C1_block_coverage (numBlocks : Nat) (row : ServerRow)
    (hse : row.span.start ≤ row.span.«end») (hen : row.span.«end» ≤ numBlocks) :
    (∀ idx, idx < numBlocks →
      (blockCell row idx ≠ [] ↔ (row.span.start ≤ idx ∧ idx < row.span.«end»))) ∧
    (coverageRow numBlocks row).countP (fun c => decide (c ≠ [])) =
      row.span.«end» - row.span.start ∧
    (∀ idx, row.span.start ≤ idx → idx < row.span.«end» → idx < numBlocks) ∧
    (∀ idx, row.span.start ≤ idx → idx < row.span.«end» →
      blockCell row idx = STATE_CHARS row.state) ∧
    (∀ idx, ¬(row.span.start ≤ idx ∧ idx < row.span.«end») → blockCell row idx = []) ∧
    STATE_CHARS PeerState.online = STATE_CHARS PeerState.joining ∧
    STATE_CHARS PeerState.unreachable ≠ STATE_CHARS PeerState.online ∧
    STATE_CHARS PeerState.offline ≠ STATE_CHARS PeerState.online ∧
    STATE_CHARS PeerState.offline ≠ STATE_CHARS PeerState.unreachable := by
  refine ⟨?_, ?_, ?_, ?_, ?_, ?_, ?_, ?_, ?_⟩
  · intro idx _
    by_cases h : row.span.start ≤ idx ∧ idx < row.span.«end»
    · simp [blockCell, h, STATE_CHARS_ne_nil row.state]
    · simp [blockCell, h]
  · have hc : (coverageRow numBlocks row).countP (fun c => decide (c ≠ [])) =
        (List.range numBlocks).countP
          (fun i => decide (row.span.start ≤ i ∧ i < row.span.«end»)) := by
      rw [coverageRow, List.countP_map]
      apply List.countP_congr
      intro i _
      by_cases h : row.span.start ≤ i ∧ i < row.span.«end» <;>
        simp [Function.comp, blockCell, h, STATE_CHARS_ne_nil row.state]
    rw [hc, countP_range_interval]
    omega
  · intro idx _ h2
    omega
  · intro idx h1 h2
    simp [blockCell, h1, h2]
  · intro idx h
    simp [blockCell, h]
  · decide
  · decide
  · decide
  · decide

/-- A `ServerInfo` with every optional field absent, for concrete instances. -/
def sampleServerInfo : ServerInfo :=
  { public_name := none, version := none, throughput := none, inference_rps := none,
    forward_rps := none, network_rps := none, torch_dtype := none, quant_type := none,
    cache_tokens_left := none, using_relay := none }

/-- A concrete server row spanning blocks `[1, 3)` of a 4-block model. -/
def sampleRow : ServerRow :=
  { short_peer_id := [], peer_id := [], show_public_name := true,
    state := PeerState.online,
    span := { start := 1, «end» := 3, length := 2, server_info := sampleServerInfo },
    adapters := [], pings_to_me := [], cache_tokens_left_per_block := none }

theorem claim_C1_block_coverage_witness :
    (coverageRow 4 sampleRow).countP (fun c => decide (c ≠ [])) = 2 :=
  ((claim_C1_block_coverage 4 sampleRow (by decide) (by decide)).2.1).trans (by decide)

theorem filter_orderedInsert (c : Int) (x : ContributorEntry) :
    ∀ l : List ContributorEntry,
      (List.orderedInsert contribLE x l).filter (fun e => decide (e.2 = c)) =
        if x.2 = c then x :: l.filter (fun e => decide (e.2 = c))
        else l.filter (fun e => decide (e.2 = c)) := by
  intro l
  induction l with
  | nil => by_cases hx : x.2 = c <;> simp [hx]
  | cons y ys ih =>
    by_cases hxy : contribLE x y
    · by_cases hx : x.2 = c <;> simp [List.orderedInsert, if_pos hxy, List.filter_cons, hx]
    · have hlt : x.2 < y.2 := lt_of_not_le (fun h => hxy h)
      by_cases hx : x.2 = c
      · have hy : ¬(y.2 = c) := by omega
        simp [List.orderedInsert, if_neg hxy, List.filter_cons, hy, ih, hx]
      · simp [List.orderedInsert, if_neg hxy, List.filter_cons, ih, hx]

theorem filter_insertionSort (c : Int) :
    ∀ l : List ContributorEntry,
      (List.insertionSort contribLE l).filter (fun e => decide (e.2 = c)) =
        l.filter (fun e => decide (e.2 = c)) := by
  intro l
  induction l with
  | nil => rfl
  | cons x xs ih =>
    simp only [List.insertionSort, filter_orderedInsert, ih]
    by_cases hx : x.2 = c <;> simp [List.filter_cons, hx]

/-- Claim C2: the contributor ranking returns at most 5 entries; entries are
ordered by descending count (strictly descending where counts differ); and
for every count value, the ranked entries with that count form a prefix of
the input entries with that count — equal-count entries keep the input's
iteration order, for every input (hence for every permutation of an input
that only reorders equal-count entries). -/
theorem claim_C2_top_contributors (counter : List ContributorEntry) :
    (RichApp.getTopContributors counter).length ≤ 5 ∧
    List.Sorted contribLE (RichApp.getTopContributors counter) ∧
    (RichApp.getTopContributors counter).Pairwise (fun a b => a.2 ≠ b.2 → b.2 < a.2) ∧
    (∀ c : Int, ∃ tail,
      (RichApp.getTopContributors counter).filter (fun e => decide (e.2 = c)) ++ tail =
        counter.filter (fun e => decide (e.2 = c))) := by
  have hs : List.Sorted contribLE (RichApp.getTopContributors counter) :=
    (List.sorted_insertionSort contribLE counter).sublist
      (List.take_sublist MAX_CONTRIBUTORS (List.insertionSort contribLE counter))
  refine ⟨?_, hs, ?_, ?_⟩
  · rw [RichApp.getTopContributors]
    simp only [List.length_take, MAX_CONTRIBUTORS]
    omega
  · refine hs.imp ?_
    intro a b hab hne
    have hab2 : b.2 ≤ a.2 := hab
    exact lt_of_le_of_ne hab2 (fun hh => hne hh.symm)
  · intro c
    obtain ⟨t, ht⟩ := List.take_prefix MAX_CONTRIBUTORS (List.insertionSort contribLE counter)
    refine ⟨t.filter (fun e => decide (e.2 = c)), ?_⟩
    rw [RichApp.getTopContributors, ← List.filter_append, ht, filter_insertionSort]

/-- Claim C3: `normalizeTimestamp` maps a finite numeric wire value, or a
string whose numeric conversion is finite, to exactly that value times 1000;
an absent, non-numeric or non-finite wire value maps to the current instant;
and the result is always finite. -/
theorem claim_C3_normalize_timestamp (now : ℚ) (t : WireTimestamp) :
    (∀ v : ℚ, t = WireTimestamp.num (JSNumber.finite v) →
      normalizeTimestamp now t = JSNumber.finite (v * 1000)) ∧
    (∀ s v, t = WireTimestamp.str s → jsStringToNumber s = JSNumber.finite v →
      normalizeTimestamp now t = JSNumber.finite (v * 1000)) ∧
    (∀ s, t = WireTimestamp.str s → (jsStringToNumber s).isFinite = false →
      normalizeTimestamp now t = JSNumber.finite now) ∧
    (∀ v, t = WireTimestamp.num v → v.isFinite = false →
      normalizeTimestamp now t = JSNumber.finite now) ∧
    (t = WireTimestamp.absent → normalizeTimestamp now t = JSNumber.finite now) ∧
    (normalizeTimestamp now t).isFinite = true := by
  refine ⟨?_, ?_, ?_, ?_, ?_, ?_⟩
  · rintro v rfl
    rfl
  · rintro s v rfl h
    simp [normalizeTimestamp, h]
  · rintro s rfl h
    cases hj : jsStringToNumber s with
    | finite q => rw [hj] at h; simp [JSNumber.isFinite] at h
    | nan => simp [normalizeTimestamp, hj]
    | posInf => simp [normalizeTimestamp, hj]
    | negInf => simp [normalizeTimestamp, hj]
  · rintro v rfl h
    cases v with
    | finite q => simp [JSNumber.isFinite] at h
    | nan => rfl
    | posInf => rfl
    | negInf => rfl
  · rintro rfl
    rfl
  · cases t with
    | num v => cases v <;> simp [normalizeTimestamp, JSNumber.isFinite]
    | str s =>
      cases hj : jsStringToNumber s <;> simp [normalizeTimestamp, hj, JSNumber.isFinite]
    | absent => simp [normalizeTimestamp, JSNumber.isFinite]

theorem claim_C3_normalize_timestamp_witness :
    normalizeTimestamp 5 (WireTimestamp.str "1700000000") = JSNumber.finite 1700000000000 ∧
    normalizeTimestamp 5 (WireTimestamp.str "not-a-number") = JSNumber.finite 5 := by
  constructor
  · have h := (claim_C3_normalize_timestamp 5 (WireTimestamp.str "1700000000")).2.1
      "1700000000" 1700000000 rfl (by decide)
    have h2 : (1700000000 : ℚ) * 1000 = 1700000000000 := by norm_num
    rw [h, h2]
  · exact (claim_C3_normalize_timestamp 5 (WireTimestamp.str "not-a-number")).2.2.1
      "not-a-number" rfl (by decide)

/-- Claim C4: the poll refetch interval equals
`max(update_period × 1000, 30000)` milliseconds, where the period is taken
from the last successful snapshot and defaults to 60 before any success; in
particular it is at least 30000 ms for every period, including 0 and negative
values. -/
theorem claim_C4_refetch_interval (data : Option HealthState) :
    refetchInterval data =
      max (((data.map HealthState.update_period).getD 60) * 1000) 30000 ∧
    30000 ≤ refetchInterval data ∧
    refetchInterval none = max (60 * 1000) 30000 := by
  refine ⟨?_, ?_, rfl⟩
  · cases data <;> rfl
  · cases data <;> exact le_max_right _ _

/-- Claim C7: for a non-negative round-trip time `rtt`, `formatPing` renders
`rtt × 1000` milliseconds with one decimal place followed by `" ms"` when
`rtt ≤ 5`, and the literal `"> 5 s"` when `rtt > 5`. -/
theorem claim_C7_format_ping (rtt : ℚ) (_hnn : 0 ≤ rtt) :
    (rtt ≤ 5 → RichApp.formatPing rtt = jsToFixed1 (rtt * 1000) ++ " ms".data) ∧
    (5 < rtt → RichApp.formatPing rtt = "> 5 s".data) := by
  constructor
  · intro h
    simp [RichApp.formatPing, h]
  · intro h
    simp [RichApp.formatPing, not_le.mpr h]

theorem claim_C7_format_ping_witness :
    RichApp.formatPing (423/10000) = "42.3 ms".data ∧
    RichApp.formatPing 7 = "> 5 s".data := by
  constructor
  · have h := (claim_C7_format_ping (423/10000) (by norm_num)).1 (by norm_num)
    rw [h]
    have h2 : (423/10000 : ℚ) * 1000 = 423/10 := by norm_num
    rw [h2]
    have h3 : (⌊(423/10 : ℚ) * 10 + 1/2⌋ : Int) = 423 := by norm_num [Int.floor_eq_iff]
    simp only [jsToFixed1, h3]
    decide
  · exact (claim_C7_format_ping 7 (by norm_num)).2 (by norm_num)

/-- Claim C8: `renderThroughput` returns the em-dash placeholder for every
absent or non-finite input, and for a finite input the value rounded to the
nearest integer, thousands-grouped, suffixed with `" tok/s"`. -/
theorem claim_C8_render_throughput (throughput : Option JSNumber) :
    (jsIsFinite throughput = false → RichApp.renderThroughput throughput = "—".data) ∧
    (∀ q : ℚ, RichApp.renderThroughput (some (JSNumber.finite q)) =
      jsToLocaleString (jsRound q) ++ " tok/s".data) ∧
    RichApp.renderThroughput none = "—".data := by
  refine ⟨?_, ?_, rfl⟩
  · intro h
    simp [RichApp.renderThroughput, h]
  · intro q
    simp [RichApp.renderThroughput, jsIsFinite, JSNumber.isFinite, jsToFiniteVal]

theorem claim_C8_render_throughput_witness :
    RichApp.renderThroughput none = "—".data ∧
    RichApp.renderThroughput (some (JSNumber.finite (6173/5))) = "1,235 tok/s".data := by
  constructor
  · exact (claim_C8_render_throughput none).1 (by decide)
  · have h := (claim_C8_render_throughput (some (JSNumber.finite (6173/5)))).2.1 (6173/5)
    rw [h]
    have h2 : jsRound (6173/5 : ℚ) = 1235 := by
      rw [jsRound]
      norm_num [Int.floor_eq_iff]
    rw [h2]
    decide

/-- A non-2xx response whose body text is obtainable but empty. -/
def emptyBodyResponse : WireResponse :=
  { ok := false, status := 503, bodyText := Except.ok "", jsonBody := Except.error () }

/-- Counterexample to claim C5 as stated: for a non-2xx response whose body
text is obtainable but empty, the error message is the generic status string,
not the (empty) body text — JavaScript `||` treats the empty string as
falsy. -/
theorem claim_C5_counterexample :
    safeReadText emptyBodyResponse = some "" ∧
    fetchHealthState 0 emptyBodyResponse =
      FetchResult.failure "Request failed with status 503" ∧
    fetchHealthState 0 emptyBodyResponse ≠ FetchResult.failure "" := by
  refine ⟨rfl, by decide, by decide⟩

/-- Claim C5 (amended): on every non-2xx response, `fetchHealthState` fails
with the body text as message whenever the body text is obtainable and
nonempty; when the body is unobtainable or empty, the message is the generic
`"Request failed with status <code>"`; and a throwing body read is swallowed
by `safeReadText` into an absent body. -/
theorem claim_C5_transport_error (now : ℚ) (r : WireResponse) (hok : r.ok = false) :
    (∀ s, safeReadText r = some s → s ≠ "" →
      fetchHealthState now r = FetchResult.failure s) ∧
    (safeReadText r = none ∨ safeReadText r = some "" →
      fetchHealthState now r = FetchResult.failure
        ("Request failed with status " ++ toString r.status)) ∧
    (∀ e, r.bodyText = Except.error e → safeReadText r = none) := by
  refine ⟨?_, ?_, ?_⟩
  · intro s hs hne
    simp [fetchHealthState, hok, jsOrString, hs, hne]
  · intro h
    rcases h with h | h <;> simp [fetchHealthState, hok, jsOrString, h]
  · intro e he
    simp [safeReadText, he]

/-- A non-2xx response with a nonempty obtainable body. -/
def oopsResponse : WireResponse :=
  { ok := false, status := 500, bodyText := Except.ok "boom", jsonBody := Except.error () }

theorem claim_C5_transport_error_witness :
    fetchHealthState 0 oopsResponse = FetchResult.failure "boom" :=
  (claim_C5_transport_error 0 oopsResponse rfl).1 "boom" rfl (by decide)

/-- Claim C6: a contributor name parsing as an absolute http(s) URL renders
as a link targeting the original string, labelled `host ++ pathname` with one
trailing slash stripped; a name without the http(s) prefix renders as plain
text of the raw name; a prefixed name whose URL parse fails renders as a link
with the raw name as both target and label. In every case the visible label
is truncated to 20 characters: strings of length ≤ 20 are unchanged, longer
strings become exactly 20 characters whose 20th character is the ellipsis
marker. -/
theorem claim_C6_format_contributor_name (name : JSString) :
    (∀ u, parseURL name = some u →
      RichApp.formatContributorName name =
        RenderedName.link name
          (RichApp.truncateWithEllipsis (u.host ++ RichApp.stripTrailingSlash u.pathname) 20)) ∧
    (("http://".data).isPrefixOf name = false → ("https://".data).isPrefixOf name = false →
      RichApp.formatContributorName name =
        RenderedName.text (RichApp.truncateWithEllipsis name 20)) ∧
    ((("http://".data).isPrefixOf name = true ∨ ("https://".data).isPrefixOf name = true) →
      parseURL name = none →
      RichApp.formatContributorName name =
        RenderedName.link name (RichApp.truncateWithEllipsis name 20)) ∧
    (∀ s : JSString, s.length ≤ 20 → RichApp.truncateWithEllipsis s 20 = s) ∧
    (∀ s : JSString, 20 < s.length →
      (RichApp.truncateWithEllipsis s 20).length = 20 ∧
      (RichApp.truncateWithEllipsis s 20).drop 19 = ['…']) := by
  refine ⟨?_, ?_, ?_, ?_, ?_⟩
  · intro u hu
    by_cases h1 : ("http://".data).isPrefixOf name
    · simp [RichApp.formatContributorName, h1, RichApp.normalizeLink, hu]
    · by_cases h2 : ("https://".data).isPrefixOf name
      · simp [RichApp.formatContributorName, h1, h2, RichApp.normalizeLink, hu]
      · simp [parseURL, h1, h2] at hu
  · intro h1 h2
    simp [RichApp.formatContributorName, h1, h2]
  · intro hpre hnone
    rcases hpre with h | h <;>
      simp [RichApp.formatContributorName, h, RichApp.normalizeLink, hnone]
  · intro s h
    simp [RichApp.truncateWithEllipsis, h]
  · intro s h
    have hn : ¬(s.length ≤ 20) := by omega
    have htk : (s.take 19).length = 19 := by
      simp [List.length_take]
      omega
    constructor
    · simp [RichApp.truncateWithEllipsis, hn]
      omega
    · rw [RichApp.truncateWithEllipsis, if_neg hn]
      calc ((s.take (20 - 1)) ++ ['…']).drop 19
          = ((s.take 19) ++ ['…']).drop (s.take 19).length := by rw [htk]
        _ = ['…'] := List.drop_left _ _

theorem claim_C6_format_contributor_name_witness :
    RichApp.formatContributorName "http://example.com/foo/".data =
      RenderedName.link "http://example.com/foo/".data "example.com/foo".data := by
  have h := (claim_C6_format_contributor_name "http://example.com/foo/".data).1
    { host := "example.com".data, pathname := "/foo/".data } (by decide)
  rw [h]
  decide

/-- Claim C9: the contributor cell shows a sentinel rather than a name
whenever the privacy gate is on (`show_public_name = false`) or no public
name is present; the two sentinel states are distinguishable in the rich
dashboard variant (`Hidden` vs `—` badges, the basic variant rendering an
empty cell for both); a name is rendered exactly when `show_public_name` is
true and a (nonempty) public name is present. -/
theorem claim_C9_render_contributor (row : ServerRow) :
    (row.show_public_name = false →
      RichApp.renderContributor row = ContributorCell.hiddenBadge ∧
      BasicApp.renderContributor row = ContributorCell.empty) ∧
    (row.show_public_name = true →
      jsTruthyStr row.span.server_info.public_name = false →
      RichApp.renderContributor row = ContributorCell.dashBadge ∧
      BasicApp.renderContributor row = ContributorCell.empty) ∧
    ContributorCell.hiddenBadge ≠ ContributorCell.dashBadge ∧
    ((∃ r, RichApp.renderContributor row = ContributorCell.named r) ↔
      (row.show_public_name = true ∧
        jsTruthyStr row.span.server_info.public_name = true)) ∧
    ((∃ r, BasicApp.renderContributor row = ContributorCell.named r) ↔
      (row.show_public_name = true ∧
        jsTruthyStr row.span.server_info.public_name = true)) := by
  refine ⟨?_, ?_, by decide, ?_, ?_⟩
  · intro h
    exact ⟨by simp [RichApp.renderContributor, h], by simp [BasicApp.renderContributor, h]⟩
  · intro h ht
    exact ⟨by simp [RichApp.renderContributor, h, ht],
           by simp [BasicApp.renderContributor, h, ht]⟩
  · constructor
    · rintro ⟨r, hr⟩
      by_cases h1 : row.show_public_name = false
      · simp [RichApp.renderContributor, h1] at hr
      · by_cases h2 : jsTruthyStr row.span.server_info.public_name = false
        · simp [RichApp.renderContributor, h1, h2] at hr
        · exact ⟨by simpa using h1, by simpa using h2⟩
    · rintro ⟨h1, h2⟩
      exact ⟨RichApp.formatContributorName (row.span.server_info.public_name.getD []),
        by simp [RichApp.renderContributor, h1, h2]⟩
  · constructor
    · rintro ⟨r, hr⟩
      by_cases h1 : row.show_public_name = false
      · simp [BasicApp.renderContributor, h1] at hr
      · by_cases h2 : jsTruthyStr row.span.server_info.public_name = false
        · simp [BasicApp.renderContributor, h1, h2] at hr
        · exact ⟨by simpa using h1, by simpa using h2⟩
    · rintro ⟨h1, h2⟩
      exact ⟨BasicApp.formatContributorName (row.span.server_info.public_name.getD []),
        by simp [BasicApp.renderContributor, h1, h2]⟩

/-- A server row with the privacy gate on. -/
def hiddenRow : ServerRow := { sampleRow with show_public_name := false }

theorem claim_C9_render_contributor_witness :
    RichApp.renderContributor hiddenRow = ContributorCell.hiddenBadge ∧
    BasicApp.renderContributor hiddenRow = ContributorCell.empty :=
  (claim_C9_render_contributor hiddenRow).1 rfl

/-- Claim C10: the two presentation variants implement extensionally equal
pure scalar computations for every function the claim lists. -/
theorem claim_C10_variant_equivalence :
    (∀ counter, BasicApp.getTopContributors counter = RichApp.getTopContributors counter) ∧
    (∀ value m, BasicApp.truncateWithEllipsis value m = RichApp.truncateWithEllipsis value m) ∧
    (∀ value, BasicApp.normalizeLink value = RichApp.normalizeLink value) ∧
    (∀ version, BasicApp.renderVersion version = RichApp.renderVersion version) ∧
    (∀ t, BasicApp.renderThroughput t = RichApp.renderThroughput t) ∧
    (∀ v, BasicApp.renderRps v = RichApp.renderRps v) ∧
    (∀ info, BasicApp.renderPrecision info = RichApp.renderPrecision info) ∧
    (∀ u, BasicApp.renderAvailability u = RichApp.renderAvailability u) ∧
    (∀ rtt, BasicApp.formatPing rtt = RichApp.formatPing rtt) :=
  ⟨fun _ => rfl, fun _ _ => rfl, fun _ => rfl, fun _ => rfl, fun _ => rfl,
   fun _ => rfl, fun _ => rfl, fun _ => rfl, fun _ => rfl⟩

theorem claim_C2_top_contributors_witness :
    (RichApp.getTopContributors [("a".data, 3), ("b".data, 7), ("c".data, 3)]).length ≤ 5 :=
  (claim_C2_top_contributors [("a".data, 3), ("b".data, 7), ("c".data, 3)]).1

/-- A concrete snapshot whose server-suggested update period is zero. -/
def zeroPeriodState : HealthState :=
  { bootstrap_states := [], top_contributors := [], model_reports := [],
    reachability_issues := [], last_updated := JSNumber.finite 0,
    update_period := 0, update_duration := 0 }

theorem claim_C4_refetch_interval_witness :
    30000 ≤ refetchInterval (some zeroPeriodState) :=
  (claim_C4_refetch_interval (some zeroPeriodState)).2.1

theorem claim_C10_variant_equivalence_witness :
    BasicApp.formatPing 7 = RichApp.formatPing 7 :=
  claim_C10_variant_equivalence.2.2.2.2.2.2.2.2 7
